import Mathlib

/-!
Verification development for the Slack GPT bot (`app.py`).

The file shallowly embeds the message-handling pipeline of `app.py`:
the `/slack/events` handler (`slack_events`), its helpers (`clean_text`,
`looks_like_search_query`, `wiki_summary`, `prune_inactive_sessions`),
the curated Q&A table (`custom_qa`) and the fuzzy matcher
(`difflib.get_close_matches`, embedded down to `SequenceMatcher`).

Modelling conventions:
* Python dicts become association lists (`List (key × value)`); Python
  dict keys are unique, which the embedding states explicitly where a
  theorem needs it.
* The channel key is `Option String` because the code computes
  `event.get("channel") or event.get("channel_id") or event.get("user")`,
  which can be `None`.
* Timestamps (`datetime.now().timestamp()`, a float in Python) are
  modelled as `Int`; the handler compares them only by subtraction and
  ordering against the integer TTL. The several `datetime.now()` calls
  inside one request are modelled as a single instant (`Clock`).
* External effects (signature verifier, OpenAI, Wikipedia, Slack post)
  are oracles: the environment supplies each call outcome, the handler
  is a pure function of state, request, clock and oracles.
* `difflib` float comparisons (`ratio() >= cutoff`) are modelled by the
  exact rational comparison they implement; for the string lengths that
  occur here the double rounding error (about 1e-16) is far smaller than
  the minimal gap between distinct rationals with these denominators, so
  the comparisons agree.  `real_quick_ratio` and `quick_ratio` are upper
  bounds of `ratio` and therefore do not change which candidates pass the
  cutoff; they are omitted as pure optimisations.
-/

set_option maxRecDepth 100000

/-- ASCII apostrophe as a string (codepoint 39). -/
def apos : String := String.mk [Char.ofNat 39]

/-- Right single quotation mark (codepoint 8217), used inside the curated table. -/
def rapos : String := String.mk [Char.ofNat 8217]

/-- Python `str.lower()` (ASCII mapping; the table keys and the handler
comparisons only involve ASCII letters). -/
def pyLower (s : String) : String := String.mk (s.data.map Char.toLower)

/-- Is `c` whitespace for the purposes of `str.strip()` (space, tab, CR, LF;
the ASCII core of the Python whitespace set). -/
def wsp (c : Char) : Bool := c == ' ' || c == '\t' || c == '\r' || c == '\n'

/-- Python `str.strip()`: drop whitespace from both ends. -/
def pyStrip (s : String) : String :=
  String.mk (((s.data.dropWhile wsp).reverse.dropWhile wsp).reverse)

/-- Does `hay` start with `needle` (character lists)? -/
def startsWithL : List Char → List Char → Bool
  | [], _ => true
  | _ :: _, [] => false
  | c :: cs, h :: hs => c == h && startsWithL cs hs

/-- Substring containment on character lists; mirrors the Python `in` operator on strings. -/
def containsL (needle : List Char) : List Char → Bool
  | [] => needle.isEmpty
  | h :: hs => startsWithL needle (h :: hs) || containsL needle hs

/-- Python `needle in hay` for strings. -/
def pyIn (needle hay : String) : Bool := containsL needle.data hay.data

/-- Python `a or b` on optional strings: `None` and `""` are falsy. -/
def pyOr (a b : Option String) : Option String :=
  match a with
  | some s => if s = "" then b else some s
  | none => b

/-- Truthiness of an optional string under Python rules. -/
def truthyS : Option String → Bool
  | some s => !(s == "")
  | none => false

/-- A chat message, the `{"role": ..., "content": ...}` dict of the code. -/
structure Msg where
  role : String
  content : String
deriving DecidableEq, Repr

/-- Association-list lookup, the read side of a Python dict. -/
def alookup {K V : Type} [DecidableEq K] : List (K × V) → K → Option V
  | [], _ => none
  | p :: ps, k => if p.1 = k then some p.2 else alookup ps k

/-- Does the association list bind key `k`? -/
def hasKey {K V : Type} [DecidableEq K] (m : List (K × V)) (k : K) : Bool :=
  m.any (fun p => decide (p.1 = k))

/-- Association-list update, the write side of a Python dict:
replace the binding if the key is present, otherwise append it. -/
def aset {K V : Type} [DecidableEq K] (m : List (K × V)) (k : K) (v : V) : List (K × V) :=
  if hasKey m k then m.map (fun p => if p.1 = k then (k, v) else p)
  else m ++ [(k, v)]

/-- The curated Q&A table `custom_qa` of `app.py`, in source order. -/
def custom_qa : List (String × String) :=
  [ ("what is the leave policy",
     "Avertra provides 12 sick and 12 casual leaves annually."),
    ("who do i contact for it issues",
     "Please email it.support@avertra.com or message #it-helpdesk."),
    ("what is avertra" ++ rapos ++ "s vision",
     "“Simplify Utility Innovation” is Avertra" ++ rapos ++ "s long-term vision."),
    ("how do i request an id card re-issue",
     "Use the ID Card Form from the HR Portal or type `id card` here."),
    ("where can i find the holiday calendar",
     "Visit SharePoint > HR Documents > Holiday Calendar 2025."),
    ("who is the head of sap department",
     "The SAP department head is Mr. Khurram Siddique."),
    ("how do i claim medical reimbursement",
     "Use the form on Intranet > Finance > Claims → Upload bills."),
    ("what is the company dress code",
     "Smart casuals on weekdays, formals on Mondays."),
    ("how do i get access to sap dev system",
     "Raise a request at sapaccess@avertra.com with your manager in CC."),
    ("what is the organization structure",
     "You can view the org chart in HR Portal > Org Chart."),
    ("how to apply for leave",
     "Please use the following leave request form: https://docs.google.com/forms/d/e/1FAIpQLSd1GZ1Rg_7QxOD19Sgm43-OJtfG6TVBfyLo1REIosTLoH4piQ/viewform"),
    ("pto planner link",
     "Please access the following PTO link to apply for your leave: https://docs.google.com/spreadsheets/d/10ilz4TLd1KzsqzRTp6kvydV96-kZuN6inslLmxnx7p8/edit?gid=61543925#gid=61543925"),
    ("byd link",
     "https://my335994.sapbydesign.com/sap/public/ap/ui/repository/SAP_UI/HTMLOBERON5/client.html?"),
    ("who is the payroll vendor for avertra",
     "Payline India."),
    ("what is the payroll portal link for indian employees in avertra",
     "URL: https://avertra.paylineindia.com\nLog in with your ESS credentials."),
    ("what is avertra",
     "Since 2007, Avertra has been driven by one mission: to simplify life. Over the years, we" ++ apos ++ "ve expanded our reach across many cultures and geographies, ultimately recognizing that people share core needs—from access to trusted digital services to clean water and stable power. Guided by its diverse perspectives and foundational pillars—empathy, science, strategy, and technology—we create experiences that empower communities and connect people to what matters most."),
    ("what is the avertra website link",
     "https://avertra.com"),
    ("can you brief us on a few success stories of avertra",
     "Yes, please use the URL below to access Avertra" ++ apos ++ "s success stories: https://avertra.com/category/success-stories/"),
    ("what is the ai initiative program in the sap department",
     "The AI Initiative program in the SAP department is a strategic effort aimed at exploring and defining artificial intelligence (AI) use cases that can significantly enhance the way we work. This includes identifying opportunities where AI can improve processes, enhance customer experiences, and support smarter decision-making within SAP operations.") ]

/-! ### difflib embedding

`get_close_matches(word, possibilities, n=1, cutoff=0.65)` over
`SequenceMatcher(None, x, word)`; `a` is a possibility, `b` is the word.
`isjunk` is `None`, so the junk set is empty and the two junk-extension
loops of `find_longest_match` never fire; they are omitted.  The autojunk
rule (elements of `b` occurring more than `len b / 100 + 1` times are
dropped from the index when `len b >= 200`) is embedded in `b2j`.
-/

/-- Ascending positions of `c` in `b`: one bucket of difflib b2j index. -/
def indicesOf (b : List Char) (c : Char) : List Nat :=
  (b.enum.filter (fun p => p.2 == c)).map Prod.fst

/-- Number of occurrences of `c` in `b`. -/
def countChar (b : List Char) (c : Char) : Nat :=
  (b.filter (fun x => x == c)).length

/-- The difflib autojunk rule for elements of `b`. -/
def isPopular (b : List Char) (c : Char) : Bool :=
  decide (200 ≤ b.length) && decide (b.length / 100 + 1 < countChar b c)

/-- The b2j index of `SequenceMatcher`: positions of `c` in `b`,
empty for autojunk-popular elements. -/
def b2j (b : List Char) (c : Char) : List Nat :=
  if isPopular b c then [] else indicesOf b c

/-- Best block found so far by `find_longest_match`. -/
structure Flm where
  besti : Nat
  bestj : Nat
  bestsize : Nat
deriving DecidableEq, Repr

/-- Inner loop of `find_longest_match` over the b2j bucket of `a[i]`:
`j < blo` is skipped, `j >= bhi` breaks, otherwise the run length ending
at `(i, j)` is `j2len.get(j-1, 0) + 1` from the previous row.  At `j = 0`
the key `-1` is never present in the Python dict, so the previous-row
value there is `0`, not the entry at index `0`. -/
def flmRow (j2len : Nat → Nat) (blo bhi i : Nat) :
    List Nat → (Nat → Nat) → Flm → ((Nat → Nat) × Flm)
  | [], nj2, best => (nj2, best)
  | j :: js, nj2, best =>
    if j < blo then flmRow j2len blo bhi i js nj2 best
    else if bhi ≤ j then (nj2, best)
    else
      let k := (if j = 0 then 0 else j2len (j - 1)) + 1
      let nj2' := fun x => if x = j then k else nj2 x
      let best' := if best.bestsize < k then ⟨i + 1 - k, j + 1 - k, k⟩ else best
      flmRow j2len blo bhi i js nj2' best'

/-- Outer loop of `find_longest_match` over rows `i` in `[alo, ahi)`. -/
def flmRows (a b : List Char) (blo bhi : Nat) :
    List Nat → (Nat → Nat) → Flm → Flm
  | [], _, best => best
  | i :: is, j2len, best =>
    let step := flmRow j2len blo bhi i (b2j b (a.getD i (Char.ofNat 0))) (fun _ => 0) best
    flmRows a b blo bhi is step.1 step.2

/-- In-range character equality `a[ia] == b[jb]`; false out of range. -/
def lookEq (a b : List Char) (ia jb : Nat) : Bool :=
  match a.get? ia, b.get? jb with
  | some x, some y => x == y
  | _, _ => false

/-- Backward extension loop of `find_longest_match` (the junk set is empty,
so the guard is just the character equality). -/
def extendBack (a b : List Char) (alo blo : Nat) : Nat → Flm → Flm
  | 0, st => st
  | fuel + 1, st =>
    if alo < st.besti ∧ blo < st.bestj ∧
        lookEq a b (st.besti - 1) (st.bestj - 1) = true then
      extendBack a b alo blo fuel ⟨st.besti - 1, st.bestj - 1, st.bestsize + 1⟩
    else st

/-- Forward extension loop of `find_longest_match`. -/
def extendFwd (a b : List Char) (ahi bhi : Nat) : Nat → Flm → Flm
  | 0, st => st
  | fuel + 1, st =>
    if st.besti + st.bestsize < ahi ∧ st.bestj + st.bestsize < bhi ∧
        lookEq a b (st.besti + st.bestsize) (st.bestj + st.bestsize) = true then
      extendFwd a b ahi bhi fuel ⟨st.besti, st.bestj, st.bestsize + 1⟩
    else st

/-- `SequenceMatcher.find_longest_match` on `a[alo:ahi]`, `b[blo:bhi]`. -/
def find_longest_match (a b : List Char) (alo ahi blo bhi : Nat) : Flm :=
  let fuel := a.length + b.length + 1
  extendFwd a b ahi bhi fuel
    (extendBack a b alo blo fuel
      (flmRows a b blo bhi (List.range' alo (ahi - alo)) (fun _ => 0) ⟨alo, blo, 0⟩))

/-- Total size of the matching blocks of `get_matching_blocks` on the given
ranges: the recursive split around the longest match.  The fuel bounds the
recursion depth; `(ahi - alo) + (bhi - blo)` shrinks at every split, so
`a.length + b.length + 1` is always enough. -/
def matchTotal (a b : List Char) : Nat → Nat → Nat → Nat → Nat → Nat
  | 0, _, _, _, _ => 0
  | fuel + 1, alo, ahi, blo, bhi =>
    let m := find_longest_match a b alo ahi blo bhi
    if m.bestsize = 0 then 0
    else
      matchTotal a b fuel alo m.besti blo m.bestj + m.bestsize +
      matchTotal a b fuel (m.besti + m.bestsize) ahi (m.bestj + m.bestsize) bhi

/-- `M`: the total number of matched characters between `a` and `b`
(`sum(size for block in get_matching_blocks)`), so that
`ratio = 2M / (len a + len b)`. -/
def seqMatchSize (a b : List Char) : Nat :=
  matchTotal a b (a.length + b.length + 1) 0 a.length 0 b.length

/-- `SequenceMatcher(None, key, word).ratio() >= 0.65` as the exact rational
comparison `2M / T >= 13/20`, i.e. `40M >= 13T`. -/
def simGeCutoff (key word : String) : Bool :=
  decide (13 * (key.length + word.length) ≤ 40 * seqMatchSize key.data word.data)

/-- Is candidate `y` strictly better than `x` in the `(score, key)`
lexicographic order used by `heapq.nlargest` on `(ratio, x)` pairs?
Scores `M1/T1`, `M2/T2` are compared by cross-multiplication. -/
def betterCand (word : String) (x y : Nat × String) : Bool :=
  let tx := x.2.length + word.length
  let ty := y.2.length + word.length
  decide (x.1 * ty < y.1 * tx) || (decide (x.1 * ty = y.1 * tx) && decide (x.2 < y.2))

/-- First maximal candidate of the list under the `(score, key)` order:
`heapq.nlargest(1, result)` is `sorted(result, reverse=True)[:1]`, and the
sort is stable, so the first of equal elements wins. -/
def pickBest (word : String) : List (Nat × String) → Option (Nat × String)
  | [] => none
  | c :: cs =>
    match pickBest word cs with
    | none => some c
    | some best => if betterCand word c best then some best else some c

/-- `difflib.get_close_matches(word, possibilities, n=1, cutoff=0.65)`:
the best possibility whose similarity clears the cutoff, if any. -/
def get_close_matches (word : String) (possibilities : List String) : Option String :=
  let cands := possibilities.filterMap (fun x =>
    if 13 * (x.length + word.length) ≤ 40 * seqMatchSize x.data word.data
    then some (seqMatchSize x.data word.data, x) else none)
  (pickBest word cands).map Prod.snd

/-! ### Text normalizer, local fact patterns, lookup heuristic, wiki truncation -/

/-- After `"<@"`, consume one or more characters other than `>` followed by `>`
and return the remainder; `none` if the pattern `<@[^>]+>` cannot match here. -/
def mentionScan : List Char → Option (List Char)
  | [] => none
  | c :: rest => if c = '>' then some rest else mentionScan rest

/-- The part of the mention pattern after `"<@"`: at least one non-`>`
character, then `>`. -/
def mentionEnd : List Char → Option (List Char)
  | [] => none
  | c :: rest => if c = '>' then none else mentionScan rest

/-- One left-to-right pass of `re.sub(r"<@[^>]+>", "", text)`: at each
position, either a mention match is consumed or the character is kept.
The fuel only needs to exceed the list length, since every step consumes
at least one character. -/
def cleanAux : Nat → List Char → List Char
  | 0, l => l
  | _, [] => []
  | fuel + 1, c :: rest =>
    match c, rest with
    | '<', '@' :: rest2 =>
      (match mentionEnd rest2 with
       | some rest3 => cleanAux fuel rest3
       | none => c :: cleanAux fuel rest)
    | _, _ => c :: cleanAux fuel rest

/-- `clean_text` of `app.py`: remove Slack mentions like `<@U12345>`
and trim the result. -/
def clean_text (text : String) : String :=
  if text = "" then ""
  else pyStrip (String.mk (cleanAux (text.data.length + 1) text.data))

/-- The date-question test of the handler (on the lowercased cleaned text):
`("date" in lc and ("today" in lc or "current" in lc))` or `lc.strip()` is
one of the two literal date questions. -/
def dateQuery (lc : String) : Bool :=
  (pyIn "date" lc && (pyIn "today" lc || pyIn "current" lc)) ||
  (pyStrip lc == "what is today" ++ apos ++ "s date" ||
   pyStrip lc == "what" ++ apos ++ "s today" ++ apos ++ "s date")

/-- The time-question test of the handler:
`("time" in lc and ("now" in lc or "current" in lc))`. -/
def timeQuery (lc : String) : Bool :=
  pyIn "time" lc && (pyIn "now" lc || pyIn "current" lc)

/-- `looks_like_search_query` of `app.py`. -/
def looks_like_search_query (text : String) : Bool :=
  let t := pyLower text
  ["who", "what", "where", "when", "how", "define", "wiki", "latest", "news", "?"].any
    (fun k => pyIn k t)

/-- The network part of `wiki_summary`: the title, page url and raw extract
the two Wikipedia calls would produce; `none` bundles every silent failure
(no search hit, HTTP error, timeout, no page entry). -/
structure WikiFetch where
  title : String
  page_url : Option String
  extract : String
deriving DecidableEq, Repr

/-- `txt[:n].rsplit(" ", 1)[0]` for a string already cut to the budget:
everything before the last space, or the whole string if it has no space. -/
def beforeLastSpace (s : String) : String :=
  let d := s.data.reverse.dropWhile (fun c => decide (c ≠ ' '))
  if d.isEmpty then s else String.mk d.tail.reverse

/-- The truncation step of `wiki_summary`:
`txt[:max_chars].rsplit(" ", 1)[0] + "..."` when the text exceeds the
budget, the text unchanged otherwise. -/
def truncateExtract (txt : String) (max_chars : Nat) : String :=
  if max_chars < txt.length
  then beforeLastSpace (String.mk (txt.data.take max_chars)) ++ "..."
  else txt

/-- The pure per-page tail of `wiki_summary` in `app.py`: keep only
nonempty extracts, strip, truncate to `max_chars` at the last space with
`"..."` appended, and format the context block. -/
def wiki_summary_page (f : WikiFetch) (max_chars : Nat) : Option String :=
  if f.extract = "" then none
  else
    let txt := pyStrip f.extract
    let context := "Wikipedia summary for " ++ apos ++ f.title ++ apos ++ ":\n" ++
      truncateExtract txt max_chars
    some (match f.page_url with
          | some u => context ++ "\nSource: " ++ u
          | none => context)

/-- The dispatch on the fetched data (`none` bundles every silent network
failure of the two Wikipedia calls). -/
def wiki_summary (fetch : Option WikiFetch) (max_chars : Nat) : Option String :=
  match fetch with
  | none => none
  | some f => wiki_summary_page f max_chars

/-! ### Handler state, request, oracles -/

/-- `MAX_SEEN` of `app.py`. -/
def MAX_SEEN : Nat := 2000

/-- `MAX_HISTORY` of `app.py`. -/
def MAX_HISTORY : Nat := 10

/-- `SESSION_TTL_SECONDS` of `app.py` (60 * 30). -/
def SESSION_TTL_SECONDS : Int := 1800

/-- The process-wide mutable state of `app.py`: the seen-event set
(newest first; CPython `set.pop` removes an arbitrary element, the model
removes the oldest recorded ones on eviction), the conversation map and
the session-timestamp map. -/
structure BotState where
  processed_event_ids : List String
  conversations : List (Option String × List Msg)
  session_timestamps : List (Option String × Int)
deriving DecidableEq, Repr

/-- The state at process start: all three stores empty. -/
def initial_state : BotState := ⟨[], [], []⟩

/-- Outcome of `signature_verifier.is_valid_request`: verified, returned
false, or raised (both failure cases answer 400 with different bodies). -/
inductive SigCheck
  | valid
  | invalid
  | err
deriving DecidableEq, Repr

/-- The values `datetime.now()` renders during one request, modelled as a
single instant: the epoch timestamp, and the three `strftime` renderings
used by the handler (`%B %d, %Y`, `%I:%M %p`, `%Y-%m-%d %H:%M:%S`). -/
structure Clock where
  nowTs : Int
  dateStr : String
  timeStr : String
  stampStr : String
deriving DecidableEq, Repr

/-- Environment responses for the external calls of one request, plus the
`WIKI_LOOKUP_ENABLED` configuration flag.  `openaiResult = some c` means the
chat-completion call returned content `c`; `none` means any exception
(timeout, provider error, malformed response). -/
structure Oracles where
  sigResult : SigCheck
  wikiLookupEnabled : Bool
  wikiFetch : Option WikiFetch
  openaiResult : Option String
deriving DecidableEq, Repr

/-- The `event` object of the Slack payload (fields read by the handler;
`type` is spelled `etype` because of the JSON field name). -/
structure SlackEvent where
  bot_id : Option String := none
  subtype : Option String := none
  etype : Option String := none
  channel_type : String := ""
  channel : Option String := none
  channel_id : Option String := none
  user : Option String := none
  text : String := ""
deriving DecidableEq, Repr

/-- The JSON envelope of a request (fields read by the handler; `type` is
spelled `ptype`).  `event = none` models an absent or empty (falsy) event. -/
structure Payload where
  ptype : Option String := none
  challenge : Option String := none
  event_id : Option String := none
  event : Option SlackEvent := none
deriving DecidableEq, Repr

/-- The HTTP responses the handler produces. -/
inductive HttpResponse
  | ok (body : String)
  | badRequest (body : String)
  | challengeJson (token : Option String)
deriving DecidableEq, Repr

/-- Status code of a response. -/
def HttpResponse.status : HttpResponse → Nat
  | .ok _ => 200
  | .badRequest _ => 400
  | .challengeJson _ => 200

/-- Observable side effects of one request: the message lists of the
chat-completion calls made, and the Slack replies attempted
(`chat_postMessage`; a reply counts when the send is attempted, delivery
failures are only logged). -/
structure Effects where
  genCalls : List (List Msg)
  replies : List (Option String × String)
deriving DecidableEq, Repr

/-- No side effects. -/
def noEffects : Effects := ⟨[], []⟩

/-- Result of one request: HTTP response, next state, side effects. -/
structure HandlerOutput where
  response : HttpResponse
  state : BotState
  effects : Effects
deriving DecidableEq, Repr

/-! ### Memory operations -/

/-- Python `l[-n:]`: the last `n` elements (the whole list if shorter). -/
def lastN {α : Type} (n : Nat) (l : List α) : List α :=
  l.drop (l.length - n)

/-- Lines 226-231 of `app.py`: read the history (defaulting to `[]`),
append the user turn, trim to the last `MAX_HISTORY` entries, store. -/
def append_user_turn (st : BotState) (ch : Option String) (text : String) : BotState :=
  let hist := (alookup st.conversations ch).getD []
  let hist2 := lastN MAX_HISTORY (hist ++ [Msg.mk "user" text])
  { st with conversations := aset st.conversations ch hist2 }

/-- Lines 261-262 of `app.py`: append the assistant turn to the stored
history and trim to the last `MAX_HISTORY` entries. -/
def append_assistant_turn (st : BotState) (ch : Option String) (text : String) : BotState :=
  let hist := (alookup st.conversations ch).getD []
  let hist2 := lastN MAX_HISTORY (hist ++ [Msg.mk "assistant" text])
  { st with conversations := aset st.conversations ch hist2 }

/-- `prune_inactive_sessions` of `app.py`: collect the channels whose
timestamp is idle beyond the TTL, then pop each from both maps. -/
def prune_inactive_sessions (now_ts : Int) (st : BotState) : BotState :=
  let to_delete := (st.session_timestamps.filter
    (fun p => decide (SESSION_TTL_SECONDS < now_ts - p.2))).map Prod.fst
  { st with
    session_timestamps := st.session_timestamps.filter
      (fun p => !decide (SESSION_TTL_SECONDS < now_ts - p.2)),
    conversations := st.conversations.filter
      (fun p => !to_delete.any (fun ch => decide (ch = p.1))) }

/-- The dedup block (lines 160-169): falsy `event_id` skips the check;
a recorded id is a duplicate (`none`); otherwise the id is recorded,
evicting down to `MAX_SEEN / 2` entries when capacity is exceeded. -/
def evictSeen (l : List String) : List String :=
  if MAX_SEEN < l.length then l.take (MAX_SEEN / 2) else l

/-- Returns `none` for a duplicate delivery, otherwise the state with the
identifier recorded. -/
def dedup_step (st : BotState) (event_id : Option String) : Option BotState :=
  match event_id with
  | none => some st
  | some eid =>
    if eid = "" then some st
    else if st.processed_event_ids.contains eid then none
    else some { st with processed_event_ids := evictSeen (eid :: st.processed_event_ids) }

/-! ### The answer pipeline and the handler -/

/-- The fixed apology used when the chat-completion call fails. -/
def apologyText : String := "Sorry, I had an internal error while trying to answer."

/-- The date answer (line 210). -/
def todayAnswer (clock : Clock) : String :=
  "Today" ++ apos ++ "s date is " ++ clock.dateStr ++ "."

/-- The time answer (line 212). -/
def timeAnswer (clock : Clock) : String :=
  "The current time is " ++ clock.timeStr ++ "."

/-- Lines 234-243 of `app.py`: the system prompt, with the Wikipedia
context block appended when present. -/
def buildSystemPrompt (clock : Clock) (wiki_ctx : Option String) : String :=
  let base := ["You are a helpful assistant. Always be accurate and prefer saying " ++
        apos ++ "I don" ++ apos ++ "t know" ++ apos ++ " if you are not sure.",
      "Current date and time (server): " ++ clock.stampStr,
      "If you use external facts supplied in the context, cite the source when possible."]
  let lines := match wiki_ctx with
    | some c => base ++ ["Context from Wikipedia (do not hallucinate beyond this):", c]
    | none => base
  String.intercalate "\n" lines

/-- Result of the answer computation: the reply text, the state after it,
and the message lists of the chat-completion calls made. -/
structure AnswerResult where
  response_text : String
  state : BotState
  genCalls : List (List Msg)
deriving DecidableEq, Repr

/-- Lines 207-267 of `app.py`: date branch, time branch, curated match,
otherwise optional wiki context, user-turn append, prompt assembly, one
chat-completion call, and on success the assistant-turn append and
timestamp refresh; on failure the fixed apology with no assistant turn. -/
def computeAnswer (st : BotState) (channel_id : Option String) (cleaned_text : String)
    (clock : Clock) (oracle : Oracles) : AnswerResult :=
  let lc := pyLower cleaned_text
  if dateQuery lc then ⟨todayAnswer clock, st, []⟩
  else if timeQuery lc then ⟨timeAnswer clock, st, []⟩
  else
    match get_close_matches lc (custom_qa.map Prod.fst) with
    | some key => ⟨(alookup custom_qa key).getD "", st, []⟩
    | none =>
      let wiki_ctx := if oracle.wikiLookupEnabled && looks_like_search_query cleaned_text
                      then wiki_summary oracle.wikiFetch 800 else none
      let st4 := append_user_turn st channel_id cleaned_text
      let hist := (alookup st4.conversations channel_id).getD []
      let system_prompt := buildSystemPrompt clock wiki_ctx
      let messages := Msg.mk "system" system_prompt ::
        hist.map (fun item => Msg.mk item.role item.content)
      match oracle.openaiResult with
      | some content =>
        let assistant_text := pyStrip content
        let st5 := append_assistant_turn st4 channel_id assistant_text
        let st6 := { st5 with
          session_timestamps := aset st5.session_timestamps channel_id clock.nowTs }
        ⟨assistant_text, st6, [messages]⟩
      | none => ⟨apologyText, st4, [messages]⟩

/-- The `/slack/events` handler of `app.py` as a pure transition function:
signature check, url-verification echo, dedup, opportunistic prune, event
filtering (bot or edited messages, event kinds other than `app_mention` or
a direct-message `message`), text normalization, timestamp update, answer
computation, and the reply send. -/
def slack_events (st : BotState) (req : Payload) (clock : Clock) (oracle : Oracles) :
    HandlerOutput :=
  match oracle.sigResult with
  | SigCheck.invalid => ⟨.badRequest "Invalid signature", st, noEffects⟩
  | SigCheck.err => ⟨.badRequest "Verification error", st, noEffects⟩
  | SigCheck.valid =>
    if req.ptype = some "url_verification" then ⟨.challengeJson req.challenge, st, noEffects⟩
    else
      match dedup_step st req.event_id with
      | none => ⟨.ok "", st, noEffects⟩
      | some st1 =>
        let st2 := prune_inactive_sessions clock.nowTs st1
        match req.event with
        | none => ⟨.ok "", st2, noEffects⟩
        | some ev =>
          if truthyS ev.bot_id || ev.subtype == some "bot_message" ||
              ev.subtype == some "message_changed" then
            ⟨.ok "", st2, noEffects⟩
          else
            let channel_id := pyOr ev.channel (pyOr ev.channel_id ev.user)
            if ¬ (ev.etype = some "app_mention" ∨
                  (ev.etype = some "message" ∧ ev.channel_type = "im")) then
              ⟨.ok "", st2, noEffects⟩
            else
              let cleaned_text := clean_text ev.text
              if cleaned_text = "" then ⟨.ok "", st2, noEffects⟩
              else
                let st3 := { st2 with
                  session_timestamps := aset st2.session_timestamps channel_id clock.nowTs }
                let r := computeAnswer st3 channel_id cleaned_text clock oracle
                ⟨.ok "", r.state, ⟨r.genCalls, [(channel_id, r.response_text)]⟩⟩

/-! ### Association-list lemmas -/

theorem alookup_mem {K V : Type} [DecidableEq K] {m : List (K × V)} {k : K} {v : V}
    (h : alookup m k = some v) : (k, v) ∈ m := by
  induction m with
  | nil => simp [alookup] at h
  | cons p ps ih =>
    rw [alookup] at h
    by_cases hk : p.1 = k
    · rw [if_pos hk] at h
      have he : (k, v) = p := by cases p; simp_all
      rw [he]
      exact List.mem_cons_self p ps
    · rw [if_neg hk] at h
      exact List.mem_cons_of_mem _ (ih h)

theorem alookup_of_mem_keys {K V : Type} [DecidableEq K] {m : List (K × V)} {k : K}
    (h : k ∈ m.map Prod.fst) : ∃ v, alookup m k = some v := by
  induction m with
  | nil => simp at h
  | cons p ps ih =>
    rw [List.map_cons, List.mem_cons] at h
    by_cases hk : p.1 = k
    · exact ⟨p.2, by rw [alookup, if_pos hk]⟩
    · rcases h with h | h
      · exact absurd h.symm hk
      · rcases ih h with ⟨v, hv⟩
        exact ⟨v, by rw [alookup, if_neg hk]; exact hv⟩

theorem alookup_unique_of_nodup {K V : Type} [DecidableEq K] {m : List (K × V)} {k : K}
    {v w : V} (hn : (m.map Prod.fst).Nodup) (hl : alookup m k = some v)
    (hm : (k, w) ∈ m) : w = v := by
  induction m with
  | nil => simp at hm
  | cons p ps ih =>
    rw [List.map_cons, List.nodup_cons] at hn
    rw [alookup] at hl
    rcases List.mem_cons.mp hm with h | h
    · have hk : p.1 = k := by rw [← h]
      rw [if_pos hk] at hl
      have hv : p.2 = v := Option.some.inj hl
      rw [← h] at hv
      exact hv
    · by_cases hk : p.1 = k
      · exfalso
        apply hn.1
        rw [hk]
        exact List.mem_map_of_mem Prod.fst h
      · rw [if_neg hk] at hl
        exact ih hn.2 hl h

theorem alookup_filter_none {K V : Type} [DecidableEq K] {m : List (K × V)} {k : K}
    {p : K × V → Bool} (h : ∀ v, (k, v) ∈ m → p (k, v) = false) :
    alookup (m.filter p) k = none := by
  induction m with
  | nil => simp [alookup]
  | cons q qs ih =>
    by_cases hq : p q = true
    · rw [List.filter_cons_of_pos hq, alookup]
      by_cases hk : q.1 = k
      · exfalso
        have : q = (k, q.2) := by cases q; simp_all
        rw [this] at hq
        rw [h q.2 (this ▸ List.mem_cons_self q qs)] at hq
        exact Bool.false_ne_true hq
      · rw [if_neg hk]
        exact ih (fun v hv => h v (List.mem_cons_of_mem q hv))
    · rw [List.filter_cons_of_neg (by simpa using hq)]
      exact ih (fun v hv => h v (List.mem_cons_of_mem q hv))

theorem alookup_filter_keep {K V : Type} [DecidableEq K] {m : List (K × V)} {k : K}
    {p : K × V → Bool} (h : ∀ v, (k, v) ∈ m → p (k, v) = true) :
    alookup (m.filter p) k = alookup m k := by
  induction m with
  | nil => rfl
  | cons q qs ih =>
    by_cases hq : p q = true
    · rw [List.filter_cons_of_pos hq, alookup, alookup]
      by_cases hk : q.1 = k
      · rw [if_pos hk, if_pos hk]
      · rw [if_neg hk, if_neg hk]
        exact ih (fun v hv => h v (List.mem_cons_of_mem q hv))
    · by_cases hk : q.1 = k
      · exfalso
        have : q = (k, q.2) := by cases q; simp_all
        apply hq
        rw [this]
        exact h q.2 (this ▸ List.mem_cons_self q qs)
      · rw [List.filter_cons_of_neg (by simpa using hq), alookup, if_neg hk]
        exact ih (fun v hv => h v (List.mem_cons_of_mem q hv))

theorem mem_aset {K V : Type} [DecidableEq K] {m : List (K × V)} {k : K} {v : V}
    {q : K × V} (h : q ∈ aset m k v) : q = (k, v) ∨ q ∈ m := by
  unfold aset at h
  by_cases hk : hasKey m k = true
  · rw [if_pos hk] at h
    rcases List.mem_map.mp h with ⟨p, hp, he⟩
    by_cases hpk : p.1 = k
    · left; rw [← he, if_pos hpk]
    · right; rw [← he, if_neg hpk]; exact hp
  · rw [if_neg hk] at h
    rcases List.mem_append.mp h with h | h
    · right; exact h
    · left; simpa using h

theorem mem_aset_self {K V : Type} [DecidableEq K] (m : List (K × V)) (k : K) (v : V) :
    (k, v) ∈ aset m k v := by
  unfold aset
  by_cases hk : hasKey m k = true
  · rw [if_pos hk]
    rcases List.any_eq_true.mp hk with ⟨p, hp, hpe⟩
    have hpk : p.1 = k := of_decide_eq_true hpe
    exact List.mem_map.mpr ⟨p, hp, by simp [hpk]⟩
  · rw [if_neg hk]
    exact List.mem_append.mpr (Or.inr (List.mem_singleton.mpr rfl))

theorem mem_aset_of_ne {K V : Type} [DecidableEq K] {m : List (K × V)} {k : K} {v : V}
    {q : K × V} (hq : q ∈ m) (hne : q.1 ≠ k) : q ∈ aset m k v := by
  unfold aset
  by_cases hk : hasKey m k = true
  · rw [if_pos hk]
    exact List.mem_map.mpr ⟨q, hq, by simp [hne]⟩
  · rw [if_neg hk]
    exact List.mem_append.mpr (Or.inl hq)

theorem alookup_aset_self {K V : Type} [DecidableEq K] (m : List (K × V)) (k : K) (v : V) :
    alookup (aset m k v) k = some v := by
  unfold aset
  by_cases hk : hasKey m k = true
  · rw [if_pos hk]
    rcases List.any_eq_true.mp hk with ⟨p, hp, hpe⟩
    have hpk : p.1 = k := of_decide_eq_true hpe
    clear hk hpe
    induction m with
    | nil => simp at hp
    | cons q qs ih =>
      rw [List.map_cons, alookup]
      by_cases hqk : q.1 = k
      · simp [hqk]
      · simp only [hqk, if_false, ite_false, if_neg, not_false_iff]
        rcases List.mem_cons.mp hp with h | h
        · exact absurd (h ▸ hpk) hqk
        · exact ih h
  · rw [if_neg hk]
    induction m with
    | nil => simp [alookup]
    | cons q qs ih =>
      rw [List.cons_append, alookup]
      have hqk : ¬ q.1 = k := by
        intro hq
        apply hk
        exact List.any_eq_true.mpr ⟨q, List.mem_cons_self q qs, decide_eq_true hq⟩
      rw [if_neg hqk]
      exact ih (fun ha => hk (List.any_eq_true.mpr
        (by rcases List.any_eq_true.mp ha with ⟨p, hp, hpe⟩
            exact ⟨p, List.mem_cons_of_mem q hp, hpe⟩)))

/-! ### List and memory lemmas -/

theorem lastN_length_le {α : Type} (n : Nat) (l : List α) : (lastN n l).length ≤ n := by
  unfold lastN
  rw [List.length_drop]
  omega

theorem getLast?_lastN_concat {α : Type} (n : Nat) (hn : 1 ≤ n) (l : List α) (x : α) :
    (lastN n (l ++ [x])).getLast? = some x := by
  unfold lastN
  rw [List.length_append, List.length_singleton]
  rw [List.drop_append_of_le_length (by omega)]
  exact List.getLast?_concat _

theorem dedup_step_stores {st st1 : BotState} {e : Option String}
    (h : dedup_step st e = some st1) :
    st1.conversations = st.conversations ∧ st1.session_timestamps = st.session_timestamps := by
  cases e with
  | none => simp only [dedup_step] at h; cases h; exact ⟨rfl, rfl⟩
  | some eid =>
    simp only [dedup_step] at h
    by_cases h1 : eid = ""
    · rw [if_pos h1] at h
      cases h
      exact ⟨rfl, rfl⟩
    · rw [if_neg h1] at h
      by_cases h2 : st.processed_event_ids.contains eid = true
      · rw [if_pos h2] at h
        cases h
      · rw [if_neg h2] at h
        cases h
        exact ⟨rfl, rfl⟩

theorem pickBest_mem {word : String} {cands : List (Nat × String)} {c : Nat × String}
    (h : pickBest word cands = some c) : c ∈ cands := by
  induction cands with
  | nil => simp [pickBest] at h
  | cons q qs ih =>
    rw [pickBest] at h
    split at h
    next =>
      cases h
      exact List.mem_cons_self _ _
    next best hq =>
      by_cases hb : betterCand word q best = true
      · rw [if_pos hb] at h
        cases h
        exact List.mem_cons_of_mem _ (ih hq)
      · rw [if_neg hb] at h
        cases h
        exact List.mem_cons_self _ _

theorem get_close_matches_mem {word : String} {ps : List String} {k : String}
    (h : get_close_matches word ps = some k) : k ∈ ps := by
  simp only [get_close_matches] at h
  rcases Option.map_eq_some'.mp h with ⟨c, hc, hck⟩
  have hm := pickBest_mem hc
  rcases List.mem_filterMap.mp hm with ⟨x, hx, he⟩
  by_cases hcut : 13 * (x.length + word.length) ≤ 40 * seqMatchSize x.data word.data
  · rw [if_pos hcut] at he
    cases he
    rw [← hck]
    exact hx
  · rw [if_neg hcut] at he
    cases he

/-! ### Word-boundary truncation lemmas -/

theorem dropWhile_head_false {α : Type} (p : α → Bool) :
    ∀ (l : List α) (c : α) (rest : List α), l.dropWhile p = c :: rest → p c = false := by
  intro l
  induction l with
  | nil => intro c rest h; simp at h
  | cons a as ih =>
    intro c rest h
    rw [List.dropWhile_cons] at h
    by_cases hp : p a = true
    · rw [if_pos hp] at h
      exact ih c rest h
    · rw [if_neg hp] at h
      cases h
      simpa using hp

theorem beforeLastSpace_of_no_space {s : String} (h : ∀ c ∈ s.data, c ≠ ' ') :
    beforeLastSpace s = s := by
  unfold beforeLastSpace
  have hd : s.data.reverse.dropWhile (fun c => decide (c ≠ ' ')) = [] := by
    rw [List.dropWhile_eq_nil_iff]
    intro x hx
    exact decide_eq_true (h x (List.mem_reverse.mp hx))
  rw [hd]
  rfl

theorem beforeLastSpace_split {s : String} (h : ' ' ∈ s.data) :
    ∃ w : List Char, s = beforeLastSpace s ++ " " ++ String.mk w ∧ ∀ c ∈ w, c ≠ ' ' := by
  have hne : s.data.reverse.dropWhile (fun c => decide (c ≠ ' ')) ≠ [] := by
    rw [Ne, List.dropWhile_eq_nil_iff]
    push_neg
    exact ⟨' ', List.mem_reverse.mpr h, by simp⟩
  cases hd : s.data.reverse.dropWhile (fun c => decide (c ≠ ' ')) with
  | nil => exact absurd hd hne
  | cons c rest =>
    have hc : c = ' ' := by
      have hf := dropWhile_head_false _ _ _ _ hd
      simpa using hf
    have hsplit : s.data.reverse =
        s.data.reverse.takeWhile (fun c => decide (c ≠ ' ')) ++ (c :: rest) := by
      conv_lhs => rw [← List.takeWhile_append_dropWhile
        (p := fun c => decide (c ≠ ' ')) (l := s.data.reverse)]
      rw [hd]
    have hbls : beforeLastSpace s = String.mk rest.reverse := by
      unfold beforeLastSpace
      rw [hd]
      rfl
    set tw := s.data.reverse.takeWhile (fun c => decide (c ≠ ' ')) with htw
    refine ⟨tw.reverse, ?_, ?_⟩
    · apply String.ext
      rw [String.data_append, String.data_append, hbls]
      show s.data = rest.reverse ++ [' '] ++ tw.reverse
      have h2 : s.data = (tw ++ c :: rest).reverse := by
        rw [← hsplit, List.reverse_reverse]
      rw [h2, hc]
      simp
    · intro x hx
      have := List.mem_takeWhile_imp (List.mem_reverse.mp hx)
      simpa using this

theorem beforeLastSpace_length_le (s : String) : (beforeLastSpace s).length ≤ s.length := by
  unfold beforeLastSpace
  by_cases hd : (s.data.reverse.dropWhile (fun c => decide (c ≠ ' '))).isEmpty = true
  · rw [if_pos hd]
  · rw [if_neg hd]
    show (s.data.reverse.dropWhile (fun c => decide (c ≠ ' '))).tail.reverse.length ≤ s.data.length
    rw [List.length_reverse]
    have h1 : (s.data.reverse.dropWhile (fun c => decide (c ≠ ' '))).length ≤
        s.data.reverse.length := (List.dropWhile_sublist _).length_le
    have h2 := List.length_tail (s.data.reverse.dropWhile (fun c => decide (c ≠ ' ')))
    rw [List.length_reverse] at h1
    omega

/-! ### Routing of an accepted event -/

/-- The state just before the answer computation of an accepted event:
prune, then write the session timestamp of the channel. -/
def preAnswerState (st1 : BotState) (channel_id : Option String) (clock : Clock) : BotState :=
  let st2 := prune_inactive_sessions clock.nowTs st1
  { st2 with session_timestamps := aset st2.session_timestamps channel_id clock.nowTs }

/-- On an accepted event (valid signature, not a handshake, not a duplicate,
not a bot or edited message, accepted kind, nonempty cleaned text) the
handler answers 200, runs `computeAnswer` on the pruned-and-stamped state
and attempts exactly one reply with its text. -/
theorem slack_events_accepted
    (st st1 : BotState) (req : Payload) (clock : Clock) (oracle : Oracles) (ev : SlackEvent)
    (hsig : oracle.sigResult = SigCheck.valid)
    (hptype : ¬ req.ptype = some "url_verification")
    (hded : dedup_step st req.event_id = some st1)
    (hev : req.event = some ev)
    (hbot : truthyS ev.bot_id = false)
    (hsub1 : (ev.subtype == some "bot_message") = false)
    (hsub2 : (ev.subtype == some "message_changed") = false)
    (hkind : ev.etype = some "app_mention" ∨ (ev.etype = some "message" ∧ ev.channel_type = "im"))
    (hne : ¬ clean_text ev.text = "") :
    slack_events st req clock oracle =
      { response := HttpResponse.ok "",
        state := (computeAnswer
            (preAnswerState st1 (pyOr ev.channel (pyOr ev.channel_id ev.user)) clock)
            (pyOr ev.channel (pyOr ev.channel_id ev.user)) (clean_text ev.text) clock oracle).state,
        effects :=
          { genCalls := (computeAnswer
              (preAnswerState st1 (pyOr ev.channel (pyOr ev.channel_id ev.user)) clock)
              (pyOr ev.channel (pyOr ev.channel_id ev.user)) (clean_text ev.text) clock
              oracle).genCalls,
            replies := [(pyOr ev.channel (pyOr ev.channel_id ev.user),
              (computeAnswer
                (preAnswerState st1 (pyOr ev.channel (pyOr ev.channel_id ev.user)) clock)
                (pyOr ev.channel (pyOr ev.channel_id ev.user)) (clean_text ev.text) clock
                oracle).response_text)] } } := by
  unfold slack_events
  rw [hsig, hded, hev]
  simp only [if_neg hptype, hbot, hsub1, hsub2, Bool.or_self, Bool.or_false, Bool.false_or]
  rw [if_neg (by simp : ¬ false = true)]
  rw [if_neg (not_not_intro hkind), if_neg hne]
  rfl

/-! ### Invariants: bounded history and key containment -/

/-- Every stored conversation history (every binding of the conversation
map) has at most `MAX_HISTORY` entries. -/
def HistInv (st : BotState) : Prop :=
  ∀ p ∈ st.conversations, p.2.length ≤ MAX_HISTORY

/-- Every conversation binding has a session-timestamp binding for its key. -/
def KeyInv (st : BotState) : Prop :=
  ∀ p ∈ st.conversations, ∃ ts, (p.1, ts) ∈ st.session_timestamps

theorem histInv_ts_update {st : BotState} {x : List (Option String × Int)}
    (h : HistInv st) : HistInv { st with session_timestamps := x } :=
  fun p hp => h p hp

theorem histInv_seen_update {st : BotState} {x : List String}
    (h : HistInv st) : HistInv { st with processed_event_ids := x } :=
  fun p hp => h p hp

theorem histInv_prune {st : BotState} (now : Int) (h : HistInv st) :
    HistInv (prune_inactive_sessions now st) := by
  intro p hp
  unfold prune_inactive_sessions at hp
  exact h p (List.mem_filter.mp hp).1

theorem histInv_append_user {st : BotState} {ch : Option String} {t : String}
    (h : HistInv st) : HistInv (append_user_turn st ch t) := by
  intro p hp
  unfold append_user_turn at hp
  rcases mem_aset hp with he | hm
  · rw [he]
    exact lastN_length_le _ _
  · exact h p hm

theorem histInv_append_assistant {st : BotState} {ch : Option String} {t : String}
    (h : HistInv st) : HistInv (append_assistant_turn st ch t) := by
  intro p hp
  unfold append_assistant_turn at hp
  rcases mem_aset hp with he | hm
  · rw [he]
    exact lastN_length_le _ _
  · exact h p hm

theorem histInv_dedup {st st1 : BotState} {e : Option String}
    (hd : dedup_step st e = some st1) (h : HistInv st) : HistInv st1 := by
  intro p hp
  rw [(dedup_step_stores hd).1] at hp
  exact h p hp

/-- The message list assembled for the chat-completion call on the
fallback path (system prompt plus the trimmed history after the user-turn
append). -/
def fallbackMessages (st : BotState) (ch : Option String) (cleaned : String)
    (clock : Clock) (oracle : Oracles) : List Msg :=
  Msg.mk "system" (buildSystemPrompt clock
    (if oracle.wikiLookupEnabled && looks_like_search_query cleaned
     then wiki_summary oracle.wikiFetch 800 else none)) ::
  ((alookup (append_user_turn st ch cleaned).conversations ch).getD []).map
    (fun item => Msg.mk item.role item.content)

/-- The state after a successful fallback turn: user append, assistant
append, timestamp refresh. -/
def fallbackOkState (st : BotState) (ch : Option String) (cleaned content : String)
    (clock : Clock) : BotState :=
  let st5 := append_assistant_turn (append_user_turn st ch cleaned) ch (pyStrip content)
  { st5 with session_timestamps := aset st5.session_timestamps ch clock.nowTs }

theorem computeAnswer_date {st : BotState} {ch : Option String} {t : String}
    {clock : Clock} {oracle : Oracles} (hd : dateQuery (pyLower t) = true) :
    computeAnswer st ch t clock oracle = ⟨todayAnswer clock, st, []⟩ := by
  simp only [computeAnswer, hd]
  rfl

theorem computeAnswer_time {st : BotState} {ch : Option String} {t : String}
    {clock : Clock} {oracle : Oracles} (hd : dateQuery (pyLower t) = false)
    (ht : timeQuery (pyLower t) = true) :
    computeAnswer st ch t clock oracle = ⟨timeAnswer clock, st, []⟩ := by
  simp only [computeAnswer, hd, ht]
  rfl

theorem computeAnswer_curated {st : BotState} {ch : Option String} {t : String}
    {clock : Clock} {oracle : Oracles} {key : String}
    (hd : dateQuery (pyLower t) = false) (ht : timeQuery (pyLower t) = false)
    (hm : get_close_matches (pyLower t) (custom_qa.map Prod.fst) = some key) :
    computeAnswer st ch t clock oracle = ⟨(alookup custom_qa key).getD "", st, []⟩ := by
  simp only [computeAnswer, hd, ht, hm]
  rfl

theorem computeAnswer_fb_ok {st : BotState} {ch : Option String} {t : String}
    {clock : Clock} {oracle : Oracles} {content : String}
    (hd : dateQuery (pyLower t) = false) (ht : timeQuery (pyLower t) = false)
    (hm : get_close_matches (pyLower t) (custom_qa.map Prod.fst) = none)
    (ho : oracle.openaiResult = some content) :
    computeAnswer st ch t clock oracle =
      ⟨pyStrip content, fallbackOkState st ch t content clock,
        [fallbackMessages st ch t clock oracle]⟩ := by
  simp only [computeAnswer, hd, ht, hm, ho]
  rfl

theorem computeAnswer_fb_fail {st : BotState} {ch : Option String} {t : String}
    {clock : Clock} {oracle : Oracles}
    (hd : dateQuery (pyLower t) = false) (ht : timeQuery (pyLower t) = false)
    (hm : get_close_matches (pyLower t) (custom_qa.map Prod.fst) = none)
    (ho : oracle.openaiResult = none) :
    computeAnswer st ch t clock oracle =
      ⟨apologyText, append_user_turn st ch t,
        [fallbackMessages st ch t clock oracle]⟩ := by
  simp only [computeAnswer, hd, ht, hm, ho]
  rfl

theorem histInv_computeAnswer {st : BotState} {ch : Option String} {t : String}
    {clock : Clock} {oracle : Oracles} (h : HistInv st) :
    HistInv (computeAnswer st ch t clock oracle).state := by
  by_cases hd : dateQuery (pyLower t) = true
  · rw [computeAnswer_date hd]
    exact h
  · have hd' : dateQuery (pyLower t) = false := by simpa using hd
    by_cases ht : timeQuery (pyLower t) = true
    · rw [computeAnswer_time hd' ht]
      exact h
    · have ht' : timeQuery (pyLower t) = false := by simpa using ht
      cases hm : get_close_matches (pyLower t) (custom_qa.map Prod.fst) with
      | some key =>
        rw [computeAnswer_curated hd' ht' hm]
        exact h
      | none =>
        cases ho : oracle.openaiResult with
        | some content =>
          rw [computeAnswer_fb_ok hd' ht' hm ho]
          exact fun p hp => histInv_append_assistant (histInv_append_user h) p hp
        | none =>
          rw [computeAnswer_fb_fail hd' ht' hm ho]
          exact histInv_append_user h

theorem histInv_slack_events (st : BotState) (req : Payload) (clock : Clock)
    (oracle : Oracles) (h : HistInv st) :
    HistInv (slack_events st req clock oracle).state := by
  unfold slack_events
  split
  · exact h
  · exact h
  · split
    · exact h
    · split
      · exact h
      · next st1 hded =>
        split
        · exact histInv_prune _ (histInv_dedup hded h)
        · split
          · exact histInv_prune _ (histInv_dedup hded h)
          · split
            · exact histInv_prune _ (histInv_dedup hded h)
            · dsimp only
              split
              · exact histInv_prune _ (histInv_dedup hded h)
              · intro p hp
                exact histInv_computeAnswer
                  (histInv_ts_update (histInv_prune _ (histInv_dedup hded h))) p hp

theorem keyInv_prune {st : BotState} (now : Int) (h : KeyInv st) :
    KeyInv (prune_inactive_sessions now st) := by
  intro p hp
  unfold prune_inactive_sessions at hp ⊢
  rcases List.mem_filter.mp hp with ⟨hpm, hpred⟩
  rcases h p hpm with ⟨ts, hts⟩
  refine ⟨ts, List.mem_filter.mpr ⟨hts, ?_⟩⟩
  by_cases hexp : SESSION_TTL_SECONDS < now - ts
  · exfalso
    have hdel : p.1 ∈ (st.session_timestamps.filter
        (fun q => decide (SESSION_TTL_SECONDS < now - q.2))).map Prod.fst := by
      apply List.mem_map.mpr
      exact ⟨(p.1, ts), List.mem_filter.mpr ⟨hts, decide_eq_true hexp⟩, rfl⟩
    have : ((st.session_timestamps.filter
        (fun q => decide (SESSION_TTL_SECONDS < now - q.2))).map Prod.fst).any
          (fun ch => decide (ch = p.1)) = true :=
      List.any_eq_true.mpr ⟨p.1, hdel, decide_eq_true rfl⟩
    rw [this] at hpred
    simp at hpred
  · simp [hexp]

theorem keyInv_ts_aset {st : BotState} {ch : Option String} {v : Int} (h : KeyInv st) :
    KeyInv { st with session_timestamps := aset st.session_timestamps ch v } := by
  intro p hp
  rcases h p hp with ⟨ts, hts⟩
  by_cases hk : p.1 = ch
  · exact ⟨v, by rw [hk]; exact mem_aset_self _ _ _⟩
  · exact ⟨ts, mem_aset_of_ne hts hk⟩

theorem keyInv_append_user {st : BotState} {ch : Option String} {t : String}
    (h : KeyInv st) (hch : ∃ ts, (ch, ts) ∈ st.session_timestamps) :
    KeyInv (append_user_turn st ch t) := by
  intro p hp
  unfold append_user_turn at hp
  rcases mem_aset hp with he | hm
  · rw [he]
    exact hch
  · exact h p hm

theorem keyInv_append_assistant {st : BotState} {ch : Option String} {t : String}
    (h : KeyInv st) (hch : ∃ ts, (ch, ts) ∈ st.session_timestamps) :
    KeyInv (append_assistant_turn st ch t) := by
  intro p hp
  unfold append_assistant_turn at hp
  rcases mem_aset hp with he | hm
  · rw [he]
    exact hch
  · exact h p hm

theorem keyInv_dedup {st st1 : BotState} {e : Option String}
    (hd : dedup_step st e = some st1) (h : KeyInv st) : KeyInv st1 := by
  intro p hp
  rw [(dedup_step_stores hd).1] at hp
  rw [(dedup_step_stores hd).2]
  exact h p hp

theorem keyInv_computeAnswer {st : BotState} {ch : Option String} {t : String}
    {clock : Clock} {oracle : Oracles} (h : KeyInv st)
    (hch : ∃ ts, (ch, ts) ∈ st.session_timestamps) :
    KeyInv (computeAnswer st ch t clock oracle).state := by
  by_cases hd : dateQuery (pyLower t) = true
  · rw [computeAnswer_date hd]
    exact h
  · have hd' : dateQuery (pyLower t) = false := by simpa using hd
    by_cases ht : timeQuery (pyLower t) = true
    · rw [computeAnswer_time hd' ht]
      exact h
    · have ht' : timeQuery (pyLower t) = false := by simpa using ht
      cases hm : get_close_matches (pyLower t) (custom_qa.map Prod.fst) with
      | some key =>
        rw [computeAnswer_curated hd' ht' hm]
        exact h
      | none =>
        cases ho : oracle.openaiResult with
        | some content =>
          rw [computeAnswer_fb_ok hd' ht' hm ho]
          intro p hp
          exact keyInv_ts_aset
            (keyInv_append_assistant (keyInv_append_user h hch) hch) p hp
        | none =>
          rw [computeAnswer_fb_fail hd' ht' hm ho]
          exact keyInv_append_user h hch

theorem keyInv_slack_events (st : BotState) (req : Payload) (clock : Clock)
    (oracle : Oracles) (h : KeyInv st) :
    KeyInv (slack_events st req clock oracle).state := by
  unfold slack_events
  split
  · exact h
  · exact h
  · split
    · exact h
    · split
      · exact h
      · next st1 hded =>
        split
        · exact keyInv_prune _ (keyInv_dedup hded h)
        · split
          · exact keyInv_prune _ (keyInv_dedup hded h)
          · split
            · exact keyInv_prune _ (keyInv_dedup hded h)
            · dsimp only
              split
              · exact keyInv_prune _ (keyInv_dedup hded h)
              · intro p hp
                exact keyInv_computeAnswer
                  (keyInv_ts_aset (keyInv_prune _ (keyInv_dedup hded h)))
                  ⟨clock.nowTs, mem_aset_self _ _ _⟩ p hp

/-! ### Concrete fixtures for counterexamples and witnesses -/

/-- A concrete request clock. -/
def fxClock : Clock := ⟨100000, "January 01, 2025", "10:30 AM", "2025-01-01 10:30:00"⟩

/-- Oracles: valid signature, wiki lookup disabled, completion succeeds. -/
def fxOracle : Oracles := ⟨SigCheck.valid, false, none, some " Hi there! "⟩

/-- Oracles: valid signature, wiki lookup disabled, completion fails. -/
def fxOracleFail : Oracles := ⟨SigCheck.valid, false, none, none⟩

/-- Oracles: the signature check fails. -/
def fxOracleBadSig : Oracles := ⟨SigCheck.invalid, false, none, none⟩

/-- An app-mention event on channel C1 with the given text. -/
def fxEv (t : String) : SlackEvent :=
  { bot_id := none, subtype := none, etype := some "app_mention",
    channel_type := "", channel := some "C1", channel_id := none, user := none, text := t }

/-- An app-mention request on channel C1 with the given text. -/
def fxReq (t : String) (eid : Option String) : Payload :=
  { ptype := none, challenge := none, event_id := eid, event := some (fxEv t) }

/-! ### Claim theorems -/

/-- C5: for every request whose signature check does not succeed (the
verifier returns false or raises), the handler answers HTTP 400, performs
no event processing and mutates no state: seen-event set, conversation
histories and session timestamps are all unchanged, and no completion call
or reply is attempted. -/
theorem c5_theorem (st : BotState) (req : Payload) (clock : Clock) (oracle : Oracles)
    (h : oracle.sigResult ≠ SigCheck.valid) :
    (slack_events st req clock oracle).response.status = 400 ∧
    (slack_events st req clock oracle).state = st ∧
    (slack_events st req clock oracle).effects = noEffects := by
  unfold slack_events
  cases hs : oracle.sigResult with
  | valid => exact absurd hs h
  | invalid => exact ⟨rfl, rfl, rfl⟩
  | err => exact ⟨rfl, rfl, rfl⟩

/-- Witness for C5 at a concrete state and request. -/
theorem c5_witness :
    (slack_events initial_state (fxReq "hello" none) fxClock fxOracleBadSig).response.status = 400 ∧
    (slack_events initial_state (fxReq "hello" none) fxClock fxOracleBadSig).state =
      initial_state ∧
    (slack_events initial_state (fxReq "hello" none) fxClock fxOracleBadSig).effects =
      noEffects :=
  c5_theorem initial_state (fxReq "hello" none) fxClock fxOracleBadSig (by decide)

/-- C4: a second delivery of an event identifier that is still recorded in
the seen-event set is dropped with a 200 empty response before any further
processing: the state is unchanged and no effect happens, so the two
deliveries together produce exactly the replies of the first. -/
theorem c4_theorem (st0 : BotState) (req : Payload) (ck1 ck2 : Clock) (o1 o2 : Oracles)
    (eid : String)
    (heid : req.event_id = some eid) (hne : eid ≠ "")
    (hsig : o2.sigResult = SigCheck.valid)
    (hptype : ¬ req.ptype = some "url_verification")
    (hmem : (slack_events st0 req ck1 o1).state.processed_event_ids.contains eid = true) :
    slack_events (slack_events st0 req ck1 o1).state req ck2 o2 =
      ⟨HttpResponse.ok "", (slack_events st0 req ck1 o1).state, noEffects⟩ ∧
    ((slack_events st0 req ck1 o1).effects.replies.length = 1 →
      ((slack_events st0 req ck1 o1).effects.replies ++
        (slack_events (slack_events st0 req ck1 o1).state req ck2 o2).effects.replies).length
        = 1) := by
  have hded : dedup_step (slack_events st0 req ck1 o1).state (some eid) = none := by
    simp only [dedup_step]
    rw [if_neg hne, if_pos hmem]
  have hdrop : slack_events (slack_events st0 req ck1 o1).state req ck2 o2 =
      ⟨HttpResponse.ok "", (slack_events st0 req ck1 o1).state, noEffects⟩ := by
    conv_lhs => rw [slack_events]
    rw [hsig, if_neg hptype, heid, hded]
  refine ⟨hdrop, fun h1 => ?_⟩
  rw [hdrop]
  simpa [noEffects] using h1

/-- Witness for C4: an event answered by the date branch, redelivered with
the same identifier. -/
theorem c4_witness :
    slack_events
        (slack_events initial_state (fxReq "what is the current date" (some "Ev1"))
          fxClock fxOracle).state
        (fxReq "what is the current date" (some "Ev1")) fxClock fxOracle =
      ⟨HttpResponse.ok "",
        (slack_events initial_state (fxReq "what is the current date" (some "Ev1"))
          fxClock fxOracle).state, noEffects⟩ ∧
    ((slack_events initial_state (fxReq "what is the current date" (some "Ev1"))
        fxClock fxOracle).effects.replies.length = 1 →
      ((slack_events initial_state (fxReq "what is the current date" (some "Ev1"))
          fxClock fxOracle).effects.replies ++
        (slack_events
          (slack_events initial_state (fxReq "what is the current date" (some "Ev1"))
            fxClock fxOracle).state
          (fxReq "what is the current date" (some "Ev1")) fxClock fxOracle).effects.replies).length
        = 1) :=
  c4_theorem initial_state (fxReq "what is the current date" (some "Ev1")) fxClock fxClock
    fxOracle fxOracle "Ev1" (by decide) (by decide) (by decide) (by decide) (by decide)

/-- C3: if every stored conversation history is within the `MAX_HISTORY`
bound, it still is after any handled event; moreover the bound holds right
after the user-turn append and right after the assistant-turn append. -/
theorem c3_theorem (st : BotState) (req : Payload) (clock : Clock) (oracle : Oracles)
    (h : HistInv st) :
    HistInv (slack_events st req clock oracle).state ∧
    (∀ ch t, HistInv (append_user_turn st ch t)) ∧
    (∀ ch t, HistInv (append_assistant_turn st ch t)) :=
  ⟨histInv_slack_events st req clock oracle h,
   fun _ _ => histInv_append_user h,
   fun _ _ => histInv_append_assistant h⟩

/-- Witness for C3 starting from the empty state. -/
theorem c3_witness :
    HistInv (slack_events initial_state (fxReq "hello" none) fxClock fxOracle).state :=
  (c3_theorem initial_state (fxReq "hello" none) fxClock fxOracle
    (fun p hp => absurd hp (List.not_mem_nil p))).1

/-- C10: the empty start state satisfies the containment, and if every
conversation binding has a session-timestamp binding then the same holds
after any handled event (the timestamp is written before any history, and
the prune removes both together). -/
theorem c10_theorem (st : BotState) (req : Payload) (clock : Clock) (oracle : Oracles)
    (h : KeyInv st) :
    KeyInv initial_state ∧ KeyInv (slack_events st req clock oracle).state :=
  ⟨fun p hp => absurd hp (List.not_mem_nil p),
   keyInv_slack_events st req clock oracle h⟩

/-- Witness for C10 starting from the empty state. -/
theorem c10_witness :
    KeyInv (slack_events initial_state (fxReq "hello" none) fxClock fxOracle).state :=
  (c10_theorem initial_state (fxReq "hello" none) fxClock fxOracle
    (fun p hp => absurd hp (List.not_mem_nil p))).2

/-- C7: for a conversation whose recorded timestamp is more than the TTL
before the current time, a prune pass removes both its timestamp entry and
its history; a conversation last touched TTL-1 seconds ago keeps both.
The unique-keys hypothesis states that the maps are Python dicts. -/
theorem c7_theorem (st : BotState) (now : Int) (ch : Option String) (ts : Int)
    (hnodup : (st.session_timestamps.map Prod.fst).Nodup)
    (hts : alookup st.session_timestamps ch = some ts) :
    (SESSION_TTL_SECONDS < now - ts →
      alookup (prune_inactive_sessions now st).session_timestamps ch = none ∧
      alookup (prune_inactive_sessions now st).conversations ch = none) ∧
    (now - ts = SESSION_TTL_SECONDS - 1 →
      alookup (prune_inactive_sessions now st).session_timestamps ch = some ts ∧
      alookup (prune_inactive_sessions now st).conversations ch =
        alookup st.conversations ch) := by
  constructor
  · intro hexp
    constructor
    · apply alookup_filter_none
      intro v hv
      have hveq : v = ts := alookup_unique_of_nodup hnodup hts hv
      rw [hveq]
      simp [hexp]
    · apply alookup_filter_none
      intro v hv
      have hdel : ch ∈ (st.session_timestamps.filter
          (fun q => decide (SESSION_TTL_SECONDS < now - q.2))).map Prod.fst :=
        List.mem_map.mpr ⟨(ch, ts),
          List.mem_filter.mpr ⟨alookup_mem hts, decide_eq_true hexp⟩, rfl⟩
      have hany : ((st.session_timestamps.filter
          (fun q => decide (SESSION_TTL_SECONDS < now - q.2))).map Prod.fst).any
            (fun c => decide (c = ch)) = true :=
        List.any_eq_true.mpr ⟨ch, hdel, decide_eq_true rfl⟩
      simp [hany]
  · intro hkeep
    have hnotexp : ¬ SESSION_TTL_SECONDS < now - ts := by
      rw [hkeep]
      unfold SESSION_TTL_SECONDS
      omega
    constructor
    · rw [show (prune_inactive_sessions now st).session_timestamps =
          st.session_timestamps.filter
            (fun p => !decide (SESSION_TTL_SECONDS < now - p.2)) from rfl]
      rw [alookup_filter_keep]
      · exact hts
      · intro v hv
        have hveq : v = ts := alookup_unique_of_nodup hnodup hts hv
        rw [hveq]
        simp [hnotexp]
    · apply alookup_filter_keep
      intro v _
      simp only [Bool.not_eq_true']
      rw [List.any_eq_false]
      intro c hc
      rcases List.mem_map.mp hc with ⟨q, hq, hqc⟩
      rcases List.mem_filter.mp hq with ⟨hqm, hqexp⟩
      intro hcch
      have hc1 : q.1 = ch := by rw [hqc]; exact of_decide_eq_true hcch
      have hmem2 : (ch, q.2) ∈ st.session_timestamps := by
        rw [← hc1, Prod.mk.eta]
        exact hqm
      have hq2 : q.2 = ts := alookup_unique_of_nodup hnodup hts hmem2
      rw [hq2] at hqexp
      exact hnotexp (of_decide_eq_true hqexp)

/-- A concrete two-session state for the C7 witness: channel A idle for
2000 seconds, channel B idle for exactly TTL-1 seconds. -/
def fxPruneState : BotState :=
  ⟨[], [(some "A", [Msg.mk "user" "hi"]), (some "B", [Msg.mk "user" "yo"])],
    [(some "A", 0), (some "B", 201)]⟩

/-- Witness for C7: at `now = 2000`, channel A (timestamp 0) is dropped
from both maps and channel B (timestamp 201, idle TTL-1) is kept. -/
theorem c7_witness :
    (alookup (prune_inactive_sessions 2000 fxPruneState).session_timestamps (some "A") =
        none ∧
      alookup (prune_inactive_sessions 2000 fxPruneState).conversations (some "A") = none) ∧
    (alookup (prune_inactive_sessions 2000 fxPruneState).session_timestamps (some "B") =
        some 201 ∧
      alookup (prune_inactive_sessions 2000 fxPruneState).conversations (some "B") =
        alookup fxPruneState.conversations (some "B")) :=
  ⟨(c7_theorem fxPruneState 2000 (some "A") 0 (by decide) (by decide)).1 (by decide),
   (c7_theorem fxPruneState 2000 (some "B") 201 (by decide) (by decide)).2 (by decide)⟩

/-- C8 counterexample: the date intent and the time intent are not
disjoint, and on a text matching both the resolver answers with the date,
not with the time: the claim fails at
"what is the current date and time". -/
theorem c8_counterexample :
    timeQuery (pyLower "what is the current date and time") = true ∧
    dateQuery (pyLower "what is the current date and time") = true ∧
    (computeAnswer initial_state (some "C1") "what is the current date and time"
        fxClock fxOracle).response_text = todayAnswer fxClock ∧
    todayAnswer fxClock ≠ timeAnswer fxClock := by
  refine ⟨by decide, by decide, ?_, by decide⟩
  rw [computeAnswer_date (by decide)]

/-- C8 as amended: the two keyword patterns overlap; the resolver checks
the date pattern first, so on every normalized text that matches the time
pattern and not the date pattern it returns the current time formatted by
the clock ("HH:MM AM/PM"), makes no generative call and leaves the state
unchanged. -/
theorem c8_theorem (st : BotState) (ch : Option String) (cleaned : String)
    (clock : Clock) (oracle : Oracles)
    (ht : timeQuery (pyLower cleaned) = true)
    (hd : dateQuery (pyLower cleaned) = false) :
    computeAnswer st ch cleaned clock oracle = ⟨timeAnswer clock, st, []⟩ :=
  computeAnswer_time hd ht

/-- Witness for C8 at "what time is it now". -/
theorem c8_witness :
    computeAnswer initial_state (some "C1") "what time is it now" fxClock fxOracle =
      ⟨timeAnswer fxClock, initial_state, []⟩ :=
  c8_theorem initial_state (some "C1") "what time is it now" fxClock fxOracle
    (by decide) (by decide)

/-- The source-reference suffix of the wiki context block. -/
def wikiSource (f : WikiFetch) : String :=
  match f.page_url with
  | some u => "\nSource: " ++ u
  | none => ""

/-- C9 counterexample: an 801-character extract with no space.  The built
context hard-cuts it at 800 characters and appends the ellipsis, but no
decomposition of the 800-character budget prefix at a word boundary (a
space) exists, so "cut at the last whole word boundary within that budget"
fails for this extract. -/
theorem c9_counterexample :
    800 < (pyStrip (String.mk (List.replicate 801 'a'))).length ∧
    wiki_summary (some ⟨"T", none, String.mk (List.replicate 801 'a')⟩) 800 =
      some ("Wikipedia summary for " ++ apos ++ "T" ++ apos ++ ":\n" ++
        (String.mk (List.replicate 800 'a') ++ "...")) ∧
    ¬ ∃ p w : String,
        String.mk ((pyStrip (String.mk (List.replicate 801 'a'))).data.take 800) =
          p ++ " " ++ w := by
  refine ⟨by decide, by decide, ?_⟩
  rintro ⟨p, w, hpw⟩
  have hsp : ' ' ∈ (pyStrip (String.mk (List.replicate 801 'a'))).data.take 800 := by
    have hd := congrArg String.data hpw
    rw [String.data_append, String.data_append] at hd
    rw [show (String.mk ((pyStrip (String.mk (List.replicate 801 'a'))).data.take 800)).data =
      (pyStrip (String.mk (List.replicate 801 'a'))).data.take 800 from rfl] at hd
    rw [hd]
    exact List.mem_append.mpr (Or.inl (List.mem_append.mpr (Or.inr
      (List.mem_singleton.mpr rfl))))
  have hall : ((pyStrip (String.mk (List.replicate 801 'a'))).data.take 800).all
      (fun c => c == 'a') = true := by decide
  have := List.all_eq_true.mp hall ' ' hsp
  simp at this

/-- C9 as amended: for a nonempty fetched extract the context block embeds
exactly the truncated text.  If the stripped extract exceeds the
800-character budget, the truncation is the budget prefix cut back to the
last space with an ellipsis appended — at a whole word boundary whenever a
space occurs within the budget, and a hard cut at 800 characters when the
budget prefix has no space; the cut text never exceeds 800 characters.
Extracts within the budget are included unmodified. -/
theorem c9_theorem (f : WikiFetch) (hne : ¬ f.extract = "") :
    wiki_summary (some f) 800 =
      some ("Wikipedia summary for " ++ apos ++ f.title ++ apos ++ ":\n" ++
        truncateExtract (pyStrip f.extract) 800 ++ wikiSource f) ∧
    ((pyStrip f.extract).length ≤ 800 →
      truncateExtract (pyStrip f.extract) 800 = pyStrip f.extract) ∧
    (800 < (pyStrip f.extract).length →
      truncateExtract (pyStrip f.extract) 800 =
        beforeLastSpace (String.mk ((pyStrip f.extract).data.take 800)) ++ "..." ∧
      (beforeLastSpace (String.mk ((pyStrip f.extract).data.take 800))).length ≤ 800 ∧
      (' ' ∈ (pyStrip f.extract).data.take 800 →
        ∃ w : List Char,
          String.mk ((pyStrip f.extract).data.take 800) =
            beforeLastSpace (String.mk ((pyStrip f.extract).data.take 800)) ++ " " ++
              String.mk w ∧
          ∀ c ∈ w, c ≠ ' ') ∧
      ((∀ c ∈ (pyStrip f.extract).data.take 800, c ≠ ' ') →
        truncateExtract (pyStrip f.extract) 800 =
          String.mk ((pyStrip f.extract).data.take 800) ++ "...")) := by
  refine ⟨?_, ?_, ?_⟩
  · rw [show wiki_summary (some f) 800 = wiki_summary_page f 800 from rfl]
    unfold wiki_summary_page
    rw [if_neg hne]
    cases hu : f.page_url with
    | some u =>
      have hws : wikiSource f = "\nSource: " ++ u := by
        unfold wikiSource
        rw [hu]
      rw [hws, ← String.append_assoc]
    | none =>
      have hws : wikiSource f = "" := by
        unfold wikiSource
        rw [hu]
      rw [hws, String.append_empty]
  · intro hle
    unfold truncateExtract
    rw [if_neg (by omega)]
  · intro hgt
    have htrunc : truncateExtract (pyStrip f.extract) 800 =
        beforeLastSpace (String.mk ((pyStrip f.extract).data.take 800)) ++ "..." := by
      unfold truncateExtract
      rw [if_pos hgt]
    refine ⟨htrunc, ?_, ?_, ?_⟩
    · have h1 := beforeLastSpace_length_le (String.mk ((pyStrip f.extract).data.take 800))
      have h2 : (String.mk ((pyStrip f.extract).data.take 800)).length ≤ 800 := by
        show ((pyStrip f.extract).data.take 800).length ≤ 800
        rw [List.length_take]
        omega
      omega
    · intro hsp
      exact beforeLastSpace_split hsp
    · intro hnosp
      rw [htrunc, beforeLastSpace_of_no_space hnosp]

/-- A concrete long extract with one space for the C9 witness. -/
def fxWiki : WikiFetch :=
  ⟨"Kangaroo", some "https://en.wikipedia.org/wiki/Kangaroo",
    String.mk (List.replicate 400 'a' ++ ' ' :: List.replicate 500 'b')⟩

/-- Witness for C9: a 901-character extract is truncated at its single
space inside the budget, with the ellipsis appended. -/
theorem c9_witness :
    800 < (pyStrip fxWiki.extract).length ∧
    truncateExtract (pyStrip fxWiki.extract) 800 =
      beforeLastSpace (String.mk ((pyStrip fxWiki.extract).data.take 800)) ++ "..." ∧
    (' ' ∈ (pyStrip fxWiki.extract).data.take 800 →
      ∃ w : List Char,
        String.mk ((pyStrip fxWiki.extract).data.take 800) =
          beforeLastSpace (String.mk ((pyStrip fxWiki.extract).data.take 800)) ++ " " ++
            String.mk w ∧
        ∀ c ∈ w, c ≠ ' ') := by
  have h := (c9_theorem fxWiki (by decide)).2.2 (by decide)
  exact ⟨by decide, h.1, h.2.2.1⟩

/-! ### Last-element helpers for the message list -/

theorem getLast?_map {α β : Type} (f : α → β) (l : List α) :
    (l.map f).getLast? = l.getLast?.map f := by
  induction l with
  | nil => rfl
  | cons a as ih =>
    cases as with
    | nil => rfl
    | cons b bs =>
      show (f a :: (b :: bs).map f).getLast? = ((a :: b :: bs).getLast?).map f
      rw [List.getLast?_cons_cons]
      rw [show (b :: bs).map f = f b :: bs.map f from rfl]
      rw [List.getLast?_cons_cons]
      rw [show (f b :: bs.map f) = (b :: bs).map f from rfl]
      exact ih

theorem getLast?_cons_of_getLast? {α : Type} (a : α) {l : List α} {x : α}
    (h : l.getLast? = some x) : (a :: l).getLast? = some x := by
  cases l with
  | nil => simp at h
  | cons b bs =>
    rw [List.getLast?_cons_cons]
    exact h

/-- The stored history of the channel right after the user-turn append:
the previous history with the user message appended, trimmed to the last
`MAX_HISTORY` entries. -/
theorem append_user_turn_lookup (st : BotState) (ch : Option String) (t : String) :
    alookup (append_user_turn st ch t).conversations ch =
      some (lastN MAX_HISTORY (((alookup st.conversations ch).getD []) ++ [Msg.mk "user" t])) :=
  alookup_aset_self _ _ _

theorem fallbackMessages_getLast (st : BotState) (ch : Option String) (t : String)
    (clock : Clock) (oracle : Oracles) :
    (fallbackMessages st ch t clock oracle).getLast? = some (Msg.mk "user" t) := by
  unfold fallbackMessages
  rw [append_user_turn_lookup]
  apply getLast?_cons_of_getLast?
  rw [getLast?_map]
  rw [show Option.getD (some (lastN MAX_HISTORY
      (((alookup st.conversations ch).getD []) ++ [Msg.mk "user" t]))) [] =
    lastN MAX_HISTORY (((alookup st.conversations ch).getD []) ++ [Msg.mk "user" t]) from rfl]
  rw [getLast?_lastN_concat MAX_HISTORY (by decide) _ (Msg.mk "user" t)]
  rfl

/-- C2: on an accepted event whose nonempty normalized text is neither a
date/time query nor a curated-table match, exactly one chat-completion
call is made (whether it succeeds or fails), and the last entry of the
message list passed to it is the user turn whose content is the
normalized text. -/
theorem c2_theorem (st st1 : BotState) (req : Payload) (clock : Clock) (oracle : Oracles)
    (ev : SlackEvent) (cleaned : String)
    (hsig : oracle.sigResult = SigCheck.valid)
    (hptype : ¬ req.ptype = some "url_verification")
    (hded : dedup_step st req.event_id = some st1)
    (hev : req.event = some ev)
    (hbot : truthyS ev.bot_id = false)
    (hsub1 : (ev.subtype == some "bot_message") = false)
    (hsub2 : (ev.subtype == some "message_changed") = false)
    (hkind : ev.etype = some "app_mention" ∨
      (ev.etype = some "message" ∧ ev.channel_type = "im"))
    (hclean : clean_text ev.text = cleaned)
    (hne2 : cleaned ≠ "")
    (hdate : dateQuery (pyLower cleaned) = false)
    (htime : timeQuery (pyLower cleaned) = false)
    (hmatch : get_close_matches (pyLower cleaned) (custom_qa.map Prod.fst) = none) :
    ∃ msgs, (slack_events st req clock oracle).effects.genCalls = [msgs] ∧
      msgs.getLast? = some (Msg.mk "user" cleaned) := by
  have hne : ¬ clean_text ev.text = "" := by rw [hclean]; exact hne2
  rw [slack_events_accepted st st1 req clock oracle ev hsig hptype hded hev hbot hsub1
    hsub2 hkind hne, hclean]
  refine ⟨fallbackMessages
      (preAnswerState st1 (pyOr ev.channel (pyOr ev.channel_id ev.user)) clock)
      (pyOr ev.channel (pyOr ev.channel_id ev.user)) cleaned clock oracle, ?_, ?_⟩
  · cases ho : oracle.openaiResult with
    | some content =>
      rw [show (computeAnswer
          (preAnswerState st1 (pyOr ev.channel (pyOr ev.channel_id ev.user)) clock)
          (pyOr ev.channel (pyOr ev.channel_id ev.user)) cleaned clock oracle) = _
        from computeAnswer_fb_ok hdate htime hmatch ho]
    | none =>
      rw [show (computeAnswer
          (preAnswerState st1 (pyOr ev.channel (pyOr ev.channel_id ev.user)) clock)
          (pyOr ev.channel (pyOr ev.channel_id ev.user)) cleaned clock oracle) = _
        from computeAnswer_fb_fail hdate htime hmatch ho]
  · exact fallbackMessages_getLast _ _ _ _ _

/-- Witness for C2 at the text "hello", which matches no curated key. -/
theorem c2_witness :
    ∃ msgs,
      (slack_events initial_state (fxReq "hello" none) fxClock fxOracle).effects.genCalls =
        [msgs] ∧
      msgs.getLast? = some (Msg.mk "user" "hello") :=
  c2_theorem initial_state initial_state (fxReq "hello" none) fxClock fxOracle
    (fxEv "hello") "hello" (by decide) (by decide) (by decide) (by decide) (by decide)
    (by decide) (by decide) (Or.inl (by decide)) (by decide) (by decide) (by decide)
    (by decide) (by decide)

/-- C6: on the generative-fallback path, when the completion call fails the
reply is the fixed apology string, and the conversation memory holds
exactly the state of the user-turn append: no assistant entry is recorded
for the failed turn, and the last stored entry of the channel history is
the user turn. -/
theorem c6_theorem (st st1 : BotState) (req : Payload) (clock : Clock) (oracle : Oracles)
    (ev : SlackEvent) (cleaned : String)
    (hsig : oracle.sigResult = SigCheck.valid)
    (hptype : ¬ req.ptype = some "url_verification")
    (hded : dedup_step st req.event_id = some st1)
    (hev : req.event = some ev)
    (hbot : truthyS ev.bot_id = false)
    (hsub1 : (ev.subtype == some "bot_message") = false)
    (hsub2 : (ev.subtype == some "message_changed") = false)
    (hkind : ev.etype = some "app_mention" ∨
      (ev.etype = some "message" ∧ ev.channel_type = "im"))
    (hclean : clean_text ev.text = cleaned)
    (hne2 : cleaned ≠ "")
    (hdate : dateQuery (pyLower cleaned) = false)
    (htime : timeQuery (pyLower cleaned) = false)
    (hmatch : get_close_matches (pyLower cleaned) (custom_qa.map Prod.fst) = none)
    (ho : oracle.openaiResult = none) :
    (slack_events st req clock oracle).effects.replies =
      [(pyOr ev.channel (pyOr ev.channel_id ev.user), apologyText)] ∧
    (slack_events st req clock oracle).state =
      append_user_turn
        (preAnswerState st1 (pyOr ev.channel (pyOr ev.channel_id ev.user)) clock)
        (pyOr ev.channel (pyOr ev.channel_id ev.user)) cleaned ∧
    ∃ h, alookup (slack_events st req clock oracle).state.conversations
        (pyOr ev.channel (pyOr ev.channel_id ev.user)) = some h ∧
      h.getLast? = some (Msg.mk "user" cleaned) := by
  have hne : ¬ clean_text ev.text = "" := by rw [hclean]; exact hne2
  rw [slack_events_accepted st st1 req clock oracle ev hsig hptype hded hev hbot hsub1
    hsub2 hkind hne, hclean]
  rw [show (computeAnswer
      (preAnswerState st1 (pyOr ev.channel (pyOr ev.channel_id ev.user)) clock)
      (pyOr ev.channel (pyOr ev.channel_id ev.user)) cleaned clock oracle) = _
    from computeAnswer_fb_fail hdate htime hmatch ho]
  refine ⟨rfl, rfl, ?_⟩
  refine ⟨_, append_user_turn_lookup _ _ _, ?_⟩
  rw [getLast?_lastN_concat MAX_HISTORY (by decide) _ (Msg.mk "user" cleaned)]

/-- Witness for C6 at the text "hello" with a failing completion call. -/
theorem c6_witness :
    (slack_events initial_state (fxReq "hello" none) fxClock fxOracleFail).effects.replies =
      [(some "C1", apologyText)] ∧
    (slack_events initial_state (fxReq "hello" none) fxClock fxOracleFail).state =
      append_user_turn (preAnswerState initial_state (some "C1") fxClock) (some "C1")
        "hello" ∧
    ∃ h, alookup (slack_events initial_state (fxReq "hello" none) fxClock
        fxOracleFail).state.conversations (some "C1") = some h ∧
      h.getLast? = some (Msg.mk "user" "hello") :=
  c6_theorem initial_state initial_state (fxReq "hello" none) fxClock fxOracleFail
    (fxEv "hello") "hello" (by decide) (by decide) (by decide) (by decide) (by decide)
    (by decide) (by decide) (Or.inl (by decide)) (by decide) (by decide) (by decide)
    (by decide) (by decide) (by decide)

/-- C1 counterexample: the text "pto planner link current date" matches
the curated key "pto planner link" with similarity at least the 0.65
cutoff, yet the handler replies with the date answer — which differs from
every stored curated answer — because the date branch runs before the
curated matcher.  The claim as stated is false for this input. -/
theorem c1_counterexample :
    ("pto planner link" ∈ custom_qa.map Prod.fst) ∧
    simGeCutoff "pto planner link"
      (pyLower (clean_text "pto planner link current date")) = true ∧
    (slack_events initial_state (fxReq "pto planner link current date" none)
        fxClock fxOracle).effects.replies =
      [(some "C1", todayAnswer fxClock)] ∧
    custom_qa.all (fun p => !(todayAnswer fxClock == p.2)) = true := by
  refine ⟨by decide, by decide, ?_, by decide⟩
  rw [slack_events_accepted initial_state initial_state
    (fxReq "pto planner link current date" none) fxClock fxOracle
    (fxEv "pto planner link current date") (by decide) (by decide) (by decide)
    (by decide) (by decide) (by decide) (by decide) (Or.inl (by decide)) (by decide)]
  rw [show clean_text (fxEv "pto planner link current date").text =
    "pto planner link current date" from by decide]
  rw [show (computeAnswer
      (preAnswerState initial_state
        (pyOr (fxEv "pto planner link current date").channel
          (pyOr (fxEv "pto planner link current date").channel_id
            (fxEv "pto planner link current date").user)) fxClock)
      (pyOr (fxEv "pto planner link current date").channel
        (pyOr (fxEv "pto planner link current date").channel_id
          (fxEv "pto planner link current date").user))
      "pto planner link current date" fxClock fxOracle) = _
    from computeAnswer_date (by decide)]
  rfl

/-- C1 as amended: on an accepted event whose lowercased normalized text
is not a date or time query and has a curated match at the cutoff (the
matcher returns a best key), the reply is byte-identical to the stored
answer of that best-matching key and no completion call is made.  Texts
that also match the date/time keyword patterns are answered by the local
fact resolver instead, which runs first. -/
theorem c1_theorem (st st1 : BotState) (req : Payload) (clock : Clock) (oracle : Oracles)
    (ev : SlackEvent) (cleaned key : String)
    (hsig : oracle.sigResult = SigCheck.valid)
    (hptype : ¬ req.ptype = some "url_verification")
    (hded : dedup_step st req.event_id = some st1)
    (hev : req.event = some ev)
    (hbot : truthyS ev.bot_id = false)
    (hsub1 : (ev.subtype == some "bot_message") = false)
    (hsub2 : (ev.subtype == some "message_changed") = false)
    (hkind : ev.etype = some "app_mention" ∨
      (ev.etype = some "message" ∧ ev.channel_type = "im"))
    (hclean : clean_text ev.text = cleaned)
    (hne2 : cleaned ≠ "")
    (hdate : dateQuery (pyLower cleaned) = false)
    (htime : timeQuery (pyLower cleaned) = false)
    (hmatch : get_close_matches (pyLower cleaned) (custom_qa.map Prod.fst) = some key) :
    ∃ ans, alookup custom_qa key = some ans ∧
      (slack_events st req clock oracle).effects.replies =
        [(pyOr ev.channel (pyOr ev.channel_id ev.user), ans)] ∧
      (slack_events st req clock oracle).effects.genCalls = [] := by
  have hne : ¬ clean_text ev.text = "" := by rw [hclean]; exact hne2
  obtain ⟨ans, hans⟩ := alookup_of_mem_keys (get_close_matches_mem hmatch)
  refine ⟨ans, hans, ?_, ?_⟩
  · rw [slack_events_accepted st st1 req clock oracle ev hsig hptype hded hev hbot hsub1
      hsub2 hkind hne, hclean]
    rw [show (computeAnswer
        (preAnswerState st1 (pyOr ev.channel (pyOr ev.channel_id ev.user)) clock)
        (pyOr ev.channel (pyOr ev.channel_id ev.user)) cleaned clock oracle) = _
      from computeAnswer_curated hdate htime hmatch]
    rw [show (alookup custom_qa key).getD "" = ans from by rw [hans]; rfl]
  · rw [slack_events_accepted st st1 req clock oracle ev hsig hptype hded hev hbot hsub1
      hsub2 hkind hne, hclean]
    rw [show (computeAnswer
        (preAnswerState st1 (pyOr ev.channel (pyOr ev.channel_id ev.user)) clock)
        (pyOr ev.channel (pyOr ev.channel_id ev.user)) cleaned clock oracle) = _
      from computeAnswer_curated hdate htime hmatch]

/-- Witness for C1 at the text "byd link", whose best curated match is the
key "byd link" itself. -/
theorem c1_witness :
    ∃ ans, alookup custom_qa "byd link" = some ans ∧
      (slack_events initial_state (fxReq "byd link" none) fxClock
        fxOracle).effects.replies = [(some "C1", ans)] ∧
      (slack_events initial_state (fxReq "byd link" none) fxClock
        fxOracle).effects.genCalls = [] :=
  c1_theorem initial_state initial_state (fxReq "byd link" none) fxClock fxOracle
    (fxEv "byd link") "byd link" "byd link" (by decide) (by decide) (by decide)
    (by decide) (by decide) (by decide) (by decide) (Or.inl (by decide)) (by decide)
    (by decide) (by decide) (by decide) (by decide)
